import Mathlib

/-!
# Verification of the RTP player stream timing/resequencing engine

Shallow embedding of the stream engine behind `ui/qt/rtp_player_dialog.cpp`
(Wireshark RTP player).  The dialog file itself contains the packet routing
(`tapPacket`, `addPacket`) and the rescan driver (`rescanPackets`), which are
embedded from the source.  The per-stream engine (`RtpAudioStream`:
`decode`, `reset`, `addRtpPacket`, `nearestPacket`, the timing classifier and
payload decoding) lives in `rtp_audio_stream.cpp`, which is not part of the
source tree given here; those components are modelled from the specification,
as marked on each definition.
-/

/-- Wraparound 16-bit subtraction, result in `[0, 2^16)`:
`(a - b) mod 2^16` on 16-bit sequence numbers. -/
def sub16 (a b : Nat) : Nat := (a % 65536 + 65536 - b % 65536) % 65536

/-- Signed 16-bit delta in `[-2^15, 2^15)`, as used for sequence-number
comparison (`wrap16(packet.seq - state.expected_seq)` in the spec). -/
def wrap16sub (a b : Nat) : Int :=
  if sub16 a b < 32768 then (sub16 a b : Int) else (sub16 a b : Int) - 65536

/-- Wraparound 32-bit subtraction, result in `[0, 2^32)`. -/
def sub32 (a b : Nat) : Nat :=
  (a % 4294967296 + 4294967296 - b % 4294967296) % 4294967296

/-- Signed 32-bit delta in `[-2^31, 2^31)` for RTP timestamp arithmetic. -/
def wrap32sub (a b : Nat) : Int :=
  if sub32 a b < 2147483648 then (sub32 a b : Int) else (sub32 a b : Int) - 4294967296

/-- RFC 1982 serial-number "less than" on 16-bit sequence numbers:
`a < b` iff the forward distance from `a` to `b` is in `(0, 2^15)`.
This is the wraparound-aware order on sequence numbers. -/
def seqLt16 (a b : Nat) : Prop := 0 < sub16 b a ∧ sub16 b a < 32768

instance (a b : Nat) : Decidable (seqLt16 a b) := by
  unfold seqLt16; exact instDecidableAnd

/-- One arrived RTP packet (`RtpPacketRecord` of the spec): stream key fields,
16-bit sequence number, 32-bit RTP timestamp, arrival time, payload type,
raw payload bytes and the capture frame number. -/
structure RtpPacketRecord where
  srcAddr : Nat
  srcPort : Nat
  dstAddr : Nat
  dstPort : Nat
  ssrc : Nat
  seq : Nat
  timestamp : Nat
  arrivalTime : Rat
  payloadType : Nat
  payload : List Nat
  frameNum : Nat
deriving DecidableEq

/-- Timing modes of the engine (enum referenced by the dialog as
`RtpAudioStream::JitterBuffer`, `RtpAudioStream::RtpTimestamp`,
`RtpAudioStream::Uninterrupted`). -/
inductive TimingMode where
  | JitterBuffer
  | RtpTimestamp
  | Uninterrupted
deriving DecidableEq

/-- Classifier decision (`Decision` of the spec §4.1). `JitterDrop` is
assigned to a buffered packet on eviction, never directly by `classify`. -/
inductive Decision where
  | Accept
  | OutOfSequence
  | WrongTimestamp
  | JitterDrop
deriving DecidableEq

/-- Per-stream configuration set by the dialog before each decode pass
(`setJitterBufferSize`, `setTimingMode` in `rescanPackets`). -/
structure StreamConfig where
  mode : TimingMode
  jitterDepth : Nat
deriving DecidableEq

/-- Modelled from the spec: the PayloadDecoder of `rtp_audio_stream.cpp`
(not in the source tree).  G.711 payload types 0 (PCMU) and 8 (PCMA) decode
one byte per sample at 8000 Hz; any other payload type is
unsupported/corrupt and fails. -/
def payloadDecode (pt : Nat) (bytes : List Nat) : Option (List Int × Nat) :=
  if pt = 0 ∨ pt = 8 then some (bytes.map (fun b => (b : Int) - 128), 8000) else none

/-- Modelled from the spec: `StreamState` of `rtp_audio_stream.cpp` (not in
the source tree): expected-next sequence number and RTP timestamp, sample
rate, cumulative output position, the output timeline of (time, sample)
pairs, the jitter buffer, and the per-category counters and event-time
lists. `admittedSeqs` records the sequence numbers the classifier accepted,
in admission order; `committed` records the packets emitted to the
timeline, in emission order. -/
structure StreamState where
  startTime : Rat
  haveFirst : Bool
  startTs : Nat
  expectedSeq : Nat
  expectedTs : Nat
  sampleRate : Nat
  outPos : Nat
  timeline : List (Rat × Int)
  jitterBuffer : List RtpPacketRecord
  committed : List RtpPacketRecord
  admittedSeqs : List Nat
  acceptCount : Nat
  oosCount : Nat
  wrongTsCount : Nat
  jitterDropCount : Nat
  silenceCount : Nat
  decodeFailCount : Nat
  oosTimes : List Rat
  wrongTsTimes : List Rat
  jitterDropTimes : List Rat
  silenceTimes : List Rat
deriving DecidableEq

/-- Modelled from the spec: the clean stream state produced by
`RtpAudioStream::reset(start_time)`: counters and output zeroed, jitter
buffer emptied. -/
def initState (t : Rat) : StreamState where
  startTime := t
  haveFirst := false
  startTs := 0
  expectedSeq := 0
  expectedTs := 0
  sampleRate := 8000
  outPos := 0
  timeline := []
  jitterBuffer := []
  committed := []
  admittedSeqs := []
  acceptCount := 0
  oosCount := 0
  wrongTsCount := 0
  jitterDropCount := 0
  silenceCount := 0
  decodeFailCount := 0
  oosTimes := []
  wrongTsTimes := []
  jitterDropTimes := []
  silenceTimes := []

/-- Time coordinate of the next sample to be emitted: the timeline is
densely sampled, one sample every `1/sampleRate` starting at `startTime`. -/
def StreamState.curTime (st : StreamState) : Rat :=
  st.startTime + (st.outPos : Rat) / (st.sampleRate : Rat)

/-- Append one sample at the current output position. -/
def emitSample (st : StreamState) (v : Int) : StreamState :=
  { st with timeline := st.timeline ++ [(st.curTime, v)], outPos := st.outPos + 1 }

/-- Append a run of samples back-to-back. -/
def emitSamples (st : StreamState) (vs : List Int) : StreamState :=
  vs.foldl emitSample st

/-- Output sample position implied by a packet's RTP timestamp relative to
the stream's start timestamp (wraparound-aware; RTP timestamp units are
sample ticks for the modelled codecs). -/
def targetPos (st : StreamState) (p : RtpPacketRecord) : Int :=
  wrap32sub p.timestamp st.startTs

/-- Modelled from the spec: silence gap fill of `decode()` step 3 — when the
packet's implied position is ahead of the previous timeline position, insert
explicit zero-valued samples, count them and record the gap start time. -/
def fillSilence (st : StreamState) (p : RtpPacketRecord) : StreamState :=
  if (st.outPos : Int) < targetPos st p then
    emitSamples
      { st with
          silenceCount := st.silenceCount + (targetPos st p - (st.outPos : Int)).toNat,
          silenceTimes := st.silenceTimes ++ [st.curTime] }
      (List.replicate ((targetPos st p - (st.outPos : Int)).toNat) 0)
  else st

/-- Emission step of `commitPacket` on the payload decoder's output: append
the decoded samples and count an accepted packet, or — on decoder failure —
substitute the same duration of silence and count a decode failure. -/
def commitDecoded (p : RtpPacketRecord) (st : StreamState) :
    Option (List Int × Nat) → StreamState
  | some (vs, rate) =>
      { emitSamples st vs with
          sampleRate := rate,
          acceptCount := st.acceptCount + 1,
          committed := st.committed ++ [p] }
  | none =>
      { emitSamples st (List.replicate p.payload.length 0) with
          decodeFailCount := st.decodeFailCount + 1,
          committed := st.committed ++ [p] }

/-- Modelled from the spec: commit one admitted packet to the output
timeline: fill the silence gap first (except in `Uninterrupted` mode),
then decode the payload and append the samples; a decoder failure is
non-fatal — it is counted as a decode failure and the same duration of
silence is substituted, and processing continues. -/
def commitPacket (cfg : StreamConfig) (st0 : StreamState) (p : RtpPacketRecord) :
    StreamState :=
  commitDecoded p (if cfg.mode = TimingMode.Uninterrupted then st0 else fillSilence st0 p)
    (payloadDecode p.payloadType p.payload)

/-- Modelled from the spec: the TimingClassifier (§4.1).  The first packet
initializes the stream and is accepted.  Then: a negative wraparound
sequence delta against the expected-next sequence number is
`OutOfSequence`; a timestamp further than the large-skew threshold (several
seconds of sample clock, here 3·sampleRate ticks) from the expected-next
timestamp is `WrongTimestamp`; otherwise `Accept`.  `JitterDrop` is
assigned on jitter-buffer eviction, not here. -/
def classify (st : StreamState) (p : RtpPacketRecord) : Decision :=
  if st.haveFirst then
    if wrap16sub p.seq st.expectedSeq < 0 then Decision.OutOfSequence
    else if (wrap32sub p.timestamp st.expectedTs).natAbs > 3 * st.sampleRate then
      Decision.WrongTimestamp
    else Decision.Accept
  else Decision.Accept

/-- Modelled from the spec: admit a classifier-accepted packet.  The
expected-next sequence number and timestamp are advanced.  In
`JitterBuffer` mode with positive depth the packet is held in the buffer;
if the buffer is full the oldest buffered packet is evicted and classified
`JitterDrop`.  Depth 0 degenerates to immediate commit, as do the
`RtpTimestamp` and `Uninterrupted` modes. -/
def admitRecord (st0 : StreamState) (p : RtpPacketRecord) : StreamState :=
  { st0 with
    haveFirst := true,
    startTs := if st0.haveFirst then st0.startTs else p.timestamp % 4294967296,
    expectedSeq := (p.seq + 1) % 65536,
    expectedTs := (p.timestamp % 4294967296 + p.payload.length) % 4294967296,
    admittedSeqs := st0.admittedSeqs ++ [p.seq % 65536] }

/-- Modelled from the spec: the jitter-buffer admission policy on a
classifier-accepted packet (doc comment of `admitRecord` applies to the
state bookkeeping).  In `JitterBuffer` mode with positive depth the packet
is held in the buffer; if the buffer is full the oldest buffered packet is
evicted and classified `JitterDrop`.  Depth 0 degenerates to immediate
commit, as do the `RtpTimestamp` and `Uninterrupted` modes. -/
def admitPacket (cfg : StreamConfig) (st0 : StreamState) (p : RtpPacketRecord) :
    StreamState :=
  match cfg.mode with
  | TimingMode.JitterBuffer =>
      if cfg.jitterDepth = 0 then commitPacket cfg (admitRecord st0 p) p
      else if st0.jitterBuffer.length < cfg.jitterDepth then
        { admitRecord st0 p with jitterBuffer := st0.jitterBuffer ++ [p] }
      else
        match st0.jitterBuffer with
        | [] => commitPacket cfg (admitRecord st0 p) p
        | old :: rest =>
            { admitRecord st0 p with
                jitterBuffer := rest ++ [p],
                jitterDropCount := st0.jitterDropCount + 1,
                jitterDropTimes := st0.jitterDropTimes ++ [old.arrivalTime] }
  | _ => commitPacket cfg (admitRecord st0 p) p

/-- Modelled from the spec: process one packet of the stored set — classify,
then either record the anomaly (out-of-sequence and wrong-timestamp packets
are not inserted into the output timeline) or admit the packet. -/
def processPacket (cfg : StreamConfig) (st : StreamState) (p : RtpPacketRecord) :
    StreamState :=
  match classify st p with
  | Decision.Accept => admitPacket cfg st p
  | Decision.OutOfSequence =>
      { st with oosCount := st.oosCount + 1,
                oosTimes := st.oosTimes ++ [p.arrivalTime] }
  | Decision.WrongTimestamp =>
      { st with wrongTsCount := st.wrongTsCount + 1,
                wrongTsTimes := st.wrongTsTimes ++ [p.arrivalTime] }
  | Decision.JitterDrop =>
      { st with jitterDropCount := st.jitterDropCount + 1,
                jitterDropTimes := st.jitterDropTimes ++ [p.arrivalTime] }

/-- Modelled from the spec: at the end of a decode pass the packets still
held in the jitter buffer are committed to the output in order. -/
def flushBuffer (cfg : StreamConfig) (st : StreamState) : StreamState :=
  st.jitterBuffer.foldl (commitPacket cfg) { st with jitterBuffer := [] }

/-- Modelled from the spec: `decode()` step 1 — in `RtpTimestamp` mode the
stored packets are iterated by wraparound-aware RTP timestamp order
(distance from the first stored packet's timestamp); other modes iterate in
arrival order. -/
def orderForDecode (cfg : StreamConfig) (pkts : List RtpPacketRecord) :
    List RtpPacketRecord :=
  match cfg.mode, pkts with
  | TimingMode.RtpTimestamp, p0 :: _ =>
      pkts.insertionSort
        (fun a b => sub32 a.timestamp p0.timestamp ≤ sub32 b.timestamp p0.timestamp)
  | _, _ => pkts

/-- Modelled from the spec: the full `RtpAudioStream::decode()` pass —
recompute the output timeline and event lists from the accumulated packet
set, starting from the clean state `initState t`. -/
def decodeRun (cfg : StreamConfig) (t : Rat) (pkts : List RtpPacketRecord) :
    StreamState :=
  flushBuffer cfg ((orderForDecode cfg pkts).foldl (processPacket cfg) (initState t))

/-- Sum of the per-packet classification counters. -/
def countsSum (st : StreamState) : Nat :=
  st.acceptCount + st.oosCount + st.wrongTsCount + st.jitterDropCount +
    st.decodeFailCount

/-- Modelled from the spec: the per-stream object owned by one dialog row —
stream key, accumulated packet set, current configuration, reset start
time, and the product of the last decode pass. -/
structure RtpAudioStream where
  srcAddr : Nat
  srcPort : Nat
  dstAddr : Nat
  dstPort : Nat
  ssrc : Nat
  packets : List RtpPacketRecord
  cfg : StreamConfig
  startTime : Rat
  decoded : StreamState
deriving DecidableEq

/-- Modelled from the spec: `RtpAudioStream::addRtpPacket` — append-only
accumulation of the packet set in arrival order. -/
def addRtpPacket (s : RtpAudioStream) (p : RtpPacketRecord) : RtpAudioStream :=
  { s with packets := s.packets ++ [p] }

/-- Setter `setJitterBufferSize`, as called by `rescanPackets`. -/
def setJitterBufferSize (s : RtpAudioStream) (d : Nat) : RtpAudioStream :=
  { s with cfg := { s.cfg with jitterDepth := d } }

/-- Setter `setTimingMode`, as called by `rescanPackets`. -/
def setTimingMode (s : RtpAudioStream) (m : TimingMode) : RtpAudioStream :=
  { s with cfg := { s.cfg with mode := m } }

/-- Modelled from the spec: `RtpAudioStream::reset(start_time)` — clears the
timeline and counters and empties the jitter buffer, keeping the
accumulated packet set. -/
def resetOp (s : RtpAudioStream) (t : Rat) : RtpAudioStream :=
  { s with startTime := t, decoded := initState t }

/-- Modelled from the spec: `RtpAudioStream::decode()` as an operation on
the stream object — recomputes the product from the stored packet set and
the current configuration, never from the previous product. -/
def decodeOp (s : RtpAudioStream) : RtpAudioStream :=
  { s with decoded := decodeRun s.cfg s.startTime s.packets }

/-- Modelled from the spec §6: stream routing key match —
(src addr, src port, dst addr, dst port, SSRC) equality
(`RtpAudioStream::isMatch`). -/
def isMatch (s : RtpAudioStream) (p : RtpPacketRecord) : Bool :=
  s.srcAddr = p.srcAddr ∧ s.srcPort = p.srcPort ∧ s.dstAddr = p.dstAddr ∧
    s.dstPort = p.dstPort ∧ s.ssrc = p.ssrc

/-- The one fatal failure of a decode pass (spec §7 (d)): the output buffer
cannot be allocated. -/
inductive StreamDecodeError where
  | allocFailure
deriving DecidableEq

/-- Modelled from the spec: a stream's decode pass with its resource check —
only failure to allocate the output buffer (timeline longer than the
available capacity) is fatal, surfaced as a distinguishable stream-level
error; everything else completes normally. -/
def decodeChecked (cap : Nat) (cfg : StreamConfig) (t : Rat)
    (pkts : List RtpPacketRecord) : Except StreamDecodeError StreamState :=
  if (decodeRun cfg t pkts).timeline.length ≤ cap then Except.ok (decodeRun cfg t pkts)
  else Except.error StreamDecodeError.allocFailure

/-- Modelled from the spec: the dialog decodes each stream independently
(the `rescanPackets` loop); one stream's failure leaves the others
unaffected. -/
def dialogDecodeAll (cap : Nat)
    (streams : List (StreamConfig × Rat × List RtpPacketRecord)) :
    List (Except StreamDecodeError StreamState) :=
  streams.map (fun s => decodeChecked cap s.1 s.2.1 s.2.2)

/-- The time coordinate a packet is plotted at: its relative arrival time,
or the absolute time of day when `relative` is false. -/
def packetPlotTime (captureStart : Rat) (relative : Bool) (p : RtpPacketRecord) : Rat :=
  if relative then p.arrivalTime else captureStart + p.arrivalTime

/-- Absolute distance between two time coordinates. -/
def ratDist (x y : Rat) : Rat := if x ≤ y then y - x else x - y

/-- Modelled from the spec: `RtpAudioStream::nearestPacket(timestamp,
relative)` — nearest-neighbor search over the stored packets' plotted
timestamps, returning the capture frame number (0 when no packets are
stored, as `getHoveredPacket` treats 0 as "none"). Ties keep the earlier
stored packet. -/
def nearestPacket (captureStart : Rat) (pkts : List RtpPacketRecord)
    (ts : Rat) (relative : Bool) : Nat :=
  match pkts with
  | [] => 0
  | p0 :: rest =>
      (rest.foldl
        (fun best p =>
          if ratDist (packetPlotTime captureStart relative p) ts <
              ratDist (packetPlotTime captureStart relative best) ts then p else best)
        p0).frameNum

/-- Embedded from `rtp_player_dialog.cpp:582` (`RtpPlayerDialog::addPacket`):
scan the stream rows in order; the first row whose key matches receives the
packet and the scan returns; a packet matching no row is silently
discarded. -/
def dialogAddPacket (rows : List RtpAudioStream) (p : RtpPacketRecord) :
    List RtpAudioStream :=
  match rows with
  | [] => []
  | r :: rest =>
      if isMatch r p then addRtpPacket r p :: rest
      else r :: dialogAddPacket rest p

/-- Return status of a tap listener callback. -/
inductive TapPacketStatus where
  | dontRedraw
  | redraw
deriving DecidableEq

/-- Embedded from `rtp_player_dialog.cpp:562` (`RtpPlayerDialog::tapPacket`):
packets that did not pass the display filter, or whose RTP version is not
2, are ignored before `addPacket` is invoked; the callback always returns
`TAP_PACKET_DONT_REDRAW`. -/
def tapPacket (passedDfilter : Nat) (infoVersion : Nat)
    (rows : List RtpAudioStream) (p : RtpPacketRecord) :
    List RtpAudioStream × TapPacketStatus :=
  if passedDfilter = 0 then (rows, TapPacketStatus.dontRedraw)
  else if infoVersion ≠ 2 then (rows, TapPacketStatus.dontRedraw)
  else (dialogAddPacket rows p, TapPacketStatus.dontRedraw)

/-- Embedded from `rtp_player_dialog.cpp:223` (`RtpPlayerDialog::rescanPackets`):
for every row, reset the stream, apply the dialog's current jitter depth
and timing mode, and run a fresh decode pass. -/
def rescanPackets (t : Rat) (d : Nat) (m : TimingMode)
    (rows : List RtpAudioStream) : List RtpAudioStream :=
  rows.map (fun r => decodeOp (setTimingMode (setJitterBufferSize (resetOp r t) d) m))

/-- Folding `emitSamples` preserves every state field that `emitSample` preserves. -/
lemma emitSamples_proj {α : Type} (f : StreamState → α)
    (h : ∀ st v, f (emitSample st v) = f st) :
    ∀ (vs : List Int) (st : StreamState), f (emitSamples st vs) = f st := by
  intro vs
  induction vs with
  | nil => intro st; rfl
  | cons v vs ih => intro st; exact (ih (emitSample st v)).trans (h st v)

lemma emitSamples_sampleRate (vs : List Int) (st : StreamState) :
    (emitSamples st vs).sampleRate = st.sampleRate :=
  emitSamples_proj (fun s => s.sampleRate) (fun _ _ => rfl) vs st

lemma emitSamples_startTime (vs : List Int) (st : StreamState) :
    (emitSamples st vs).startTime = st.startTime :=
  emitSamples_proj (fun s => s.startTime) (fun _ _ => rfl) vs st

lemma emitSamples_haveFirst (vs : List Int) (st : StreamState) :
    (emitSamples st vs).haveFirst = st.haveFirst :=
  emitSamples_proj (fun s => s.haveFirst) (fun _ _ => rfl) vs st

lemma emitSamples_startTs (vs : List Int) (st : StreamState) :
    (emitSamples st vs).startTs = st.startTs :=
  emitSamples_proj (fun s => s.startTs) (fun _ _ => rfl) vs st

lemma emitSamples_expectedSeq (vs : List Int) (st : StreamState) :
    (emitSamples st vs).expectedSeq = st.expectedSeq :=
  emitSamples_proj (fun s => s.expectedSeq) (fun _ _ => rfl) vs st

lemma emitSamples_expectedTs (vs : List Int) (st : StreamState) :
    (emitSamples st vs).expectedTs = st.expectedTs :=
  emitSamples_proj (fun s => s.expectedTs) (fun _ _ => rfl) vs st

lemma emitSamples_jitterBuffer (vs : List Int) (st : StreamState) :
    (emitSamples st vs).jitterBuffer = st.jitterBuffer :=
  emitSamples_proj (fun s => s.jitterBuffer) (fun _ _ => rfl) vs st

lemma emitSamples_committed (vs : List Int) (st : StreamState) :
    (emitSamples st vs).committed = st.committed :=
  emitSamples_proj (fun s => s.committed) (fun _ _ => rfl) vs st

lemma emitSamples_admittedSeqs (vs : List Int) (st : StreamState) :
    (emitSamples st vs).admittedSeqs = st.admittedSeqs :=
  emitSamples_proj (fun s => s.admittedSeqs) (fun _ _ => rfl) vs st

lemma emitSamples_acceptCount (vs : List Int) (st : StreamState) :
    (emitSamples st vs).acceptCount = st.acceptCount :=
  emitSamples_proj (fun s => s.acceptCount) (fun _ _ => rfl) vs st

lemma emitSamples_oosCount (vs : List Int) (st : StreamState) :
    (emitSamples st vs).oosCount = st.oosCount :=
  emitSamples_proj (fun s => s.oosCount) (fun _ _ => rfl) vs st

lemma emitSamples_wrongTsCount (vs : List Int) (st : StreamState) :
    (emitSamples st vs).wrongTsCount = st.wrongTsCount :=
  emitSamples_proj (fun s => s.wrongTsCount) (fun _ _ => rfl) vs st

lemma emitSamples_jitterDropCount (vs : List Int) (st : StreamState) :
    (emitSamples st vs).jitterDropCount = st.jitterDropCount :=
  emitSamples_proj (fun s => s.jitterDropCount) (fun _ _ => rfl) vs st

lemma emitSamples_silenceCount (vs : List Int) (st : StreamState) :
    (emitSamples st vs).silenceCount = st.silenceCount :=
  emitSamples_proj (fun s => s.silenceCount) (fun _ _ => rfl) vs st

lemma emitSamples_decodeFailCount (vs : List Int) (st : StreamState) :
    (emitSamples st vs).decodeFailCount = st.decodeFailCount :=
  emitSamples_proj (fun s => s.decodeFailCount) (fun _ _ => rfl) vs st

lemma emitSamples_outPos (vs : List Int) (st : StreamState) :
    (emitSamples st vs).outPos = st.outPos + vs.length := by
  induction vs generalizing st with
  | nil => rfl
  | cons v vs ih =>
      have h1 : emitSamples st (v :: vs) = emitSamples (emitSample st v) vs := rfl
      rw [h1, ih (emitSample st v)]
      simp [emitSample]
      omega

/- shape invariant for C1 -/
def timelineShape (t : Rat) (st : StreamState) : Prop :=
  st.sampleRate = 8000 ∧ st.startTime = t ∧
  st.timeline.map Prod.fst = (List.range st.outPos).map (fun i : Nat => t + (i : Rat) / 8000)

lemma payloadDecode_rate {pt : Nat} {b : List Nat} {vs : List Int} {r : Nat}
    (h : payloadDecode pt b = some (vs, r)) : r = 8000 := by
  unfold payloadDecode at h
  split at h
  · simp at h; exact h.2.symm
  · simp at h

lemma timelineShape_emitSample {t : Rat} {st : StreamState} (v : Int)
    (h : timelineShape t st) : timelineShape t (emitSample st v) := by
  obtain ⟨h1, h2, h3⟩ := h
  refine ⟨h1, h2, ?_⟩
  simp [emitSample, StreamState.curTime, h1, h2, h3, List.range_succ]

lemma timelineShape_emitSamples {t : Rat} (vs : List Int) {st : StreamState}
    (h : timelineShape t st) : timelineShape t (emitSamples st vs) := by
  induction vs generalizing st with
  | nil => exact h
  | cons v vs ih => exact ih (timelineShape_emitSample v h)

lemma timelineShape_update_silence {t : Rat} {st : StreamState} (n : Nat) (ts : List Rat)
    (h : timelineShape t st) :
    timelineShape t { st with silenceCount := n, silenceTimes := ts } := h

lemma timelineShape_fillSilence {t : Rat} {st : StreamState} (p : RtpPacketRecord)
    (h : timelineShape t st) : timelineShape t (fillSilence st p) := by
  unfold fillSilence
  split
  · exact timelineShape_emitSamples _ h
  · exact h

lemma timelineShape_commitPacket {t : Rat} (cfg : StreamConfig) {st : StreamState}
    (p : RtpPacketRecord) (h : timelineShape t st) :
    timelineShape t (commitPacket cfg st p) := by
  have hf : timelineShape t
      (if cfg.mode = TimingMode.Uninterrupted then st else fillSilence st p) := by
    split
    · exact h
    · exact timelineShape_fillSilence p h
  unfold commitPacket commitDecoded
  split
  · next vs rate heq =>
      have hr := payloadDecode_rate heq
      have h2 := timelineShape_emitSamples vs hf
      exact ⟨by simp [hr], h2.2.1, h2.2.2⟩
  · next heq =>
      have h2 := timelineShape_emitSamples (List.replicate p.payload.length 0) hf
      exact ⟨h2.1, h2.2.1, h2.2.2⟩

lemma timelineShape_admitRecord {t : Rat} {st : StreamState} (p : RtpPacketRecord)
    (h : timelineShape t st) : timelineShape t (admitRecord st p) := h

lemma timelineShape_admitPacket {t : Rat} (cfg : StreamConfig) {st : StreamState}
    (p : RtpPacketRecord) (h : timelineShape t st) :
    timelineShape t (admitPacket cfg st p) := by
  unfold admitPacket
  have ha : timelineShape t (admitRecord st p) := h
  split
  · split
    · exact timelineShape_commitPacket cfg p ha
    · split
      · exact ha
      · split
        · exact timelineShape_commitPacket cfg p ha
        · exact ha
  · exact timelineShape_commitPacket cfg p ha

lemma timelineShape_processPacket {t : Rat} (cfg : StreamConfig) {st : StreamState}
    (p : RtpPacketRecord) (h : timelineShape t st) :
    timelineShape t (processPacket cfg st p) := by
  unfold processPacket
  split
  · exact timelineShape_admitPacket cfg p h
  · exact h
  · exact h
  · exact h

lemma timelineShape_foldl {t : Rat} (cfg : StreamConfig)
    (pkts : List RtpPacketRecord) {st : StreamState} (h : timelineShape t st) :
    timelineShape t (pkts.foldl (processPacket cfg) st) := by
  induction pkts generalizing st with
  | nil => exact h
  | cons p ps ih => exact ih (timelineShape_processPacket cfg p h)

lemma timelineShape_flushBuffer {t : Rat} (cfg : StreamConfig) {st : StreamState}
    (h : timelineShape t st) : timelineShape t (flushBuffer cfg st) := by
  unfold flushBuffer
  have h0 : timelineShape t { st with jitterBuffer := [] } := h
  generalize { st with jitterBuffer := [] } = st1 at h0
  generalize st.jitterBuffer = l
  induction l generalizing st1 with
  | nil => exact h0
  | cons q qs ih => exact ih _ (timelineShape_commitPacket cfg q h0)

lemma timelineShape_decodeRun (cfg : StreamConfig) (t : Rat)
    (pkts : List RtpPacketRecord) : timelineShape t (decodeRun cfg t pkts) := by
  unfold decodeRun
  exact timelineShape_flushBuffer cfg (timelineShape_foldl cfg _ ⟨rfl, rfl, rfl⟩)

/-- Claim C1: for every accumulated packet set and every configuration, after a
decode pass the output timeline's time coordinates are strictly increasing
(hence non-decreasing with no duplicate time values) and evenly spaced at
`1/sampleRate` — the timeline stays densely sampled, silence gaps included
as explicit samples rather than omissions. -/
theorem rtp_c1 (cfg : StreamConfig) (t : Rat) (pkts : List RtpPacketRecord) :
    ((decodeRun cfg t pkts).timeline.map Prod.fst).Pairwise (· < ·) ∧
    ((decodeRun cfg t pkts).timeline.map Prod.fst).Nodup ∧
    List.Chain' (fun a b => b = a + 1 / ((decodeRun cfg t pkts).sampleRate : Rat))
      ((decodeRun cfg t pkts).timeline.map Prod.fst) := by
  obtain ⟨h1, h2, h3⟩ := timelineShape_decodeRun cfg t pkts
  rw [h3, h1]
  have hpw : ((List.range (decodeRun cfg t pkts).outPos).map
      (fun i : Nat => t + (i : Rat) / 8000)).Pairwise (· < ·) := by
    rw [List.pairwise_map]
    refine (List.pairwise_lt_range _).imp ?_
    intro i j hij
    have hc : (i : Rat) < (j : Rat) := by exact_mod_cast hij
    have hd : (i : Rat) / 8000 < (j : Rat) / 8000 := by
      apply div_lt_div_of_pos_right hc
      norm_num
    linarith
  refine ⟨hpw, hpw.imp ne_of_lt, ?_⟩
  rw [List.chain'_map, List.chain'_iff_get]
  intro i hlt
  simp only [List.length_range] at hlt
  simp only [List.get_eq_getElem, List.getElem_map, List.getElem_range]
  have hcast : ((i + 1 : Nat) : Rat) = (i : Rat) + 1 := by push_cast; ring
  rw [hcast]
  ring

lemma fillSilence_proj {α : Type} (f : StreamState → α) (st : StreamState)
    (p : RtpPacketRecord)
    (h1 : ∀ st v, f (emitSample st v) = f st)
    (h2 : ∀ st n ts, f { st with silenceCount := n, silenceTimes := ts } = f st) :
    f (fillSilence st p) = f st := by
  unfold fillSilence
  split
  · exact (emitSamples_proj f h1 _ _).trans (h2 _ _ _)
  · rfl

lemma fillSilence_jitterBuffer (st : StreamState) (p : RtpPacketRecord) :
    (fillSilence st p).jitterBuffer = st.jitterBuffer :=
  fillSilence_proj (fun s => s.jitterBuffer) st p (fun _ _ => rfl) (fun _ _ _ => rfl)

lemma fillSilence_countsSum (st : StreamState) (p : RtpPacketRecord) :
    countsSum (fillSilence st p) = countsSum st :=
  fillSilence_proj countsSum st p (fun _ _ => rfl) (fun _ _ _ => rfl)

lemma commitPacket_countsSum (cfg : StreamConfig) (st : StreamState)
    (p : RtpPacketRecord) :
    countsSum (commitPacket cfg st p) = countsSum st + 1 := by
  unfold commitPacket commitDecoded
  have hc : countsSum (if cfg.mode = TimingMode.Uninterrupted then st
      else fillSilence st p) = countsSum st := by
    split
    · rfl
    · exact fillSilence_countsSum st p
  split
  · next vs rate heq =>
      unfold countsSum at hc ⊢
      simp only [emitSamples_oosCount, emitSamples_wrongTsCount,
        emitSamples_jitterDropCount, emitSamples_decodeFailCount]
      omega
  · next heq =>
      unfold countsSum at hc ⊢
      simp only [emitSamples_oosCount, emitSamples_wrongTsCount,
        emitSamples_jitterDropCount, emitSamples_acceptCount]
      omega

lemma commitPacket_jitterBuffer (cfg : StreamConfig) (st : StreamState)
    (p : RtpPacketRecord) :
    (commitPacket cfg st p).jitterBuffer = st.jitterBuffer := by
  unfold commitPacket commitDecoded
  have hb : (if cfg.mode = TimingMode.Uninterrupted then st
      else fillSilence st p).jitterBuffer = st.jitterBuffer := by
    split
    · rfl
    · exact fillSilence_jitterBuffer st p
  split
  · simpa [emitSamples_jitterBuffer] using hb
  · simpa [emitSamples_jitterBuffer] using hb

lemma processPacket_step (cfg : StreamConfig) (st : StreamState)
    (p : RtpPacketRecord) :
    countsSum (processPacket cfg st p) + (processPacket cfg st p).jitterBuffer.length
      = countsSum st + st.jitterBuffer.length + 1 := by
  unfold processPacket
  split
  · unfold admitPacket
    split
    · split
      · rw [commitPacket_countsSum, commitPacket_jitterBuffer]
        unfold countsSum admitRecord
        simp
        try omega
      · split
        · unfold countsSum admitRecord
          simp
          try omega
        · split
          · next hbuf =>
              rw [commitPacket_countsSum, commitPacket_jitterBuffer]
              unfold countsSum admitRecord
              simp [hbuf]
              try omega
          · next old rest hbuf =>
              unfold countsSum admitRecord
              simp [hbuf]
              try omega
    · rw [commitPacket_countsSum, commitPacket_jitterBuffer]
      unfold countsSum admitRecord
      simp
      try omega
  · unfold countsSum; simp; try omega
  · unfold countsSum; simp; try omega
  · unfold countsSum; simp; try omega

lemma foldl_countsSum (cfg : StreamConfig) (pkts : List RtpPacketRecord)
    (st : StreamState) :
    countsSum (pkts.foldl (processPacket cfg) st)
        + (pkts.foldl (processPacket cfg) st).jitterBuffer.length
      = countsSum st + st.jitterBuffer.length + pkts.length := by
  induction pkts generalizing st with
  | nil => rfl
  | cons p ps ih =>
      have h1 : (p :: ps).foldl (processPacket cfg) st
          = ps.foldl (processPacket cfg) (processPacket cfg st p) := rfl
      rw [h1, ih (processPacket cfg st p), processPacket_step]
      simp
      omega

lemma foldl_commit_countsSum (cfg : StreamConfig) (l : List RtpPacketRecord)
    (st : StreamState) :
    countsSum (l.foldl (commitPacket cfg) st) = countsSum st + l.length := by
  induction l generalizing st with
  | nil => rfl
  | cons q qs ih =>
      have h1 : (q :: qs).foldl (commitPacket cfg) st
          = qs.foldl (commitPacket cfg) (commitPacket cfg st q) := rfl
      rw [h1, ih (commitPacket cfg st q), commitPacket_countsSum]
      simp
      omega

lemma flushBuffer_countsSum (cfg : StreamConfig) (st : StreamState) :
    countsSum (flushBuffer cfg st) = countsSum st + st.jitterBuffer.length := by
  unfold flushBuffer
  rw [foldl_commit_countsSum]
  rfl

/-- Claim C3: every packet processed by a decode pass lands in exactly one of
the five per-packet categories, so the accepted, out-of-sequence,
wrong-timestamp, jitter-dropped and decode-failed counts sum to the total
number of packets; inserted-silence samples are counted separately
(synthesized) and do not appear in this partition. -/
theorem rtp_c3 (cfg : StreamConfig) (t : Rat) (pkts : List RtpPacketRecord) :
    countsSum (decodeRun cfg t pkts) = pkts.length := by
  unfold decodeRun
  rw [flushBuffer_countsSum]
  have h1 := foldl_countsSum cfg (orderForDecode cfg pkts) (initState t)
  have h2 : (orderForDecode cfg pkts).length = pkts.length := by
    unfold orderForDecode
    split
    · exact List.length_insertionSort _ _
    · rfl
  have h0 : countsSum (initState t) = 0 := rfl
  have h0b : (initState t).jitterBuffer.length = 0 := rfl
  rw [h0, h0b] at h1
  omega

lemma commitPacket_haveFirst (cfg : StreamConfig) (st : StreamState)
    (p : RtpPacketRecord) : (commitPacket cfg st p).haveFirst = st.haveFirst := by
  unfold commitPacket commitDecoded
  have hb : (if cfg.mode = TimingMode.Uninterrupted then st
      else fillSilence st p).haveFirst = st.haveFirst := by
    split
    · rfl
    · exact fillSilence_proj (fun s => s.haveFirst) st p (fun _ _ => rfl) (fun _ _ _ => rfl)
  split
  · simpa [emitSamples_haveFirst] using hb
  · simpa [emitSamples_haveFirst] using hb

lemma commitPacket_expectedSeq (cfg : StreamConfig) (st : StreamState)
    (p : RtpPacketRecord) : (commitPacket cfg st p).expectedSeq = st.expectedSeq := by
  unfold commitPacket commitDecoded
  have hb : (if cfg.mode = TimingMode.Uninterrupted then st
      else fillSilence st p).expectedSeq = st.expectedSeq := by
    split
    · rfl
    · exact fillSilence_proj (fun s => s.expectedSeq) st p (fun _ _ => rfl) (fun _ _ _ => rfl)
  split
  · simpa [emitSamples_expectedSeq] using hb
  · simpa [emitSamples_expectedSeq] using hb

lemma commitPacket_expectedTs (cfg : StreamConfig) (st : StreamState)
    (p : RtpPacketRecord) : (commitPacket cfg st p).expectedTs = st.expectedTs := by
  unfold commitPacket commitDecoded
  have hb : (if cfg.mode = TimingMode.Uninterrupted then st
      else fillSilence st p).expectedTs = st.expectedTs := by
    split
    · rfl
    · exact fillSilence_proj (fun s => s.expectedTs) st p (fun _ _ => rfl) (fun _ _ _ => rfl)
  split
  · simpa [emitSamples_expectedTs] using hb
  · simpa [emitSamples_expectedTs] using hb

lemma commitPacket_startTs (cfg : StreamConfig) (st : StreamState)
    (p : RtpPacketRecord) : (commitPacket cfg st p).startTs = st.startTs := by
  unfold commitPacket commitDecoded
  have hb : (if cfg.mode = TimingMode.Uninterrupted then st
      else fillSilence st p).startTs = st.startTs := by
    split
    · rfl
    · exact fillSilence_proj (fun s => s.startTs) st p (fun _ _ => rfl) (fun _ _ _ => rfl)
  split
  · simpa [emitSamples_startTs] using hb
  · simpa [emitSamples_startTs] using hb

lemma commitPacket_admittedSeqs (cfg : StreamConfig) (st : StreamState)
    (p : RtpPacketRecord) : (commitPacket cfg st p).admittedSeqs = st.admittedSeqs := by
  unfold commitPacket commitDecoded
  have hb : (if cfg.mode = TimingMode.Uninterrupted then st
      else fillSilence st p).admittedSeqs = st.admittedSeqs := by
    split
    · rfl
    · exact fillSilence_proj (fun s => s.admittedSeqs) st p (fun _ _ => rfl) (fun _ _ _ => rfl)
  split
  · simpa [emitSamples_admittedSeqs] using hb
  · simpa [emitSamples_admittedSeqs] using hb

lemma commitPacket_committed (cfg : StreamConfig) (st : StreamState)
    (p : RtpPacketRecord) : (commitPacket cfg st p).committed = st.committed ++ [p] := by
  unfold commitPacket commitDecoded
  have hb : (if cfg.mode = TimingMode.Uninterrupted then st
      else fillSilence st p).committed = st.committed := by
    split
    · rfl
    · exact fillSilence_proj (fun s => s.committed) st p (fun _ _ => rfl) (fun _ _ _ => rfl)
  split
  · simpa [emitSamples_committed] using congrArg (fun l => l ++ [p]) hb
  · simpa [emitSamples_committed] using congrArg (fun l => l ++ [p]) hb

lemma admitPacket_haveFirst (cfg : StreamConfig) (st : StreamState)
    (p : RtpPacketRecord) : (admitPacket cfg st p).haveFirst = true := by
  unfold admitPacket
  split
  · split
    · rw [commitPacket_haveFirst]; rfl
    · split
      · rfl
      · split
        · rw [commitPacket_haveFirst]; rfl
        · rfl
  · rw [commitPacket_haveFirst]; rfl

lemma admitPacket_expectedSeq (cfg : StreamConfig) (st : StreamState)
    (p : RtpPacketRecord) : (admitPacket cfg st p).expectedSeq = (p.seq + 1) % 65536 := by
  unfold admitPacket
  split
  · split
    · rw [commitPacket_expectedSeq]; rfl
    · split
      · rfl
      · split
        · rw [commitPacket_expectedSeq]; rfl
        · rfl
  · rw [commitPacket_expectedSeq]; rfl

lemma admitPacket_admittedSeqs (cfg : StreamConfig) (st : StreamState)
    (p : RtpPacketRecord) :
    (admitPacket cfg st p).admittedSeqs = st.admittedSeqs ++ [p.seq % 65536] := by
  unfold admitPacket
  split
  · split
    · rw [commitPacket_admittedSeqs]; rfl
    · split
      · rfl
      · split
        · rw [commitPacket_admittedSeqs]; rfl
        · rfl
  · rw [commitPacket_admittedSeqs]; rfl

/-- Invariant relating the expected-next sequence number to the last
classifier-accepted sequence number. -/
def seqInv (st : StreamState) : Prop :=
  ∀ l, st.admittedSeqs.getLast? = some l →
    st.haveFirst = true ∧ l < 65536 ∧ st.expectedSeq = (l + 1) % 65536

lemma seqInv_processPacket (cfg : StreamConfig) (st : StreamState)
    (p : RtpPacketRecord) (h : seqInv st) : seqInv (processPacket cfg st p) := by
  unfold processPacket
  split
  · intro l hl
    rw [admitPacket_admittedSeqs, List.getLast?_concat] at hl
    have hlv : l = p.seq % 65536 := by
      injection hl
      omega
    refine ⟨admitPacket_haveFirst cfg st p, ?_, ?_⟩
    · omega
    · rw [admitPacket_expectedSeq, hlv]
      omega
  · exact h
  · exact h
  · exact h

lemma seqInv_foldl (cfg : StreamConfig) (pkts : List RtpPacketRecord)
    (st : StreamState) (h : seqInv st) :
    seqInv (pkts.foldl (processPacket cfg) st) := by
  induction pkts generalizing st with
  | nil => exact h
  | cons q qs ih => exact ih _ (seqInv_processPacket cfg st q h)

lemma seqInv_initState (t : Rat) : seqInv (initState t) := by
  intro l hl
  simp [initState] at hl

lemma oos_of_lt_last (a l : Nat) (hl : l < 65536) (hlt : seqLt16 a l) :
    wrap16sub a ((l + 1) % 65536) < 0 := by
  unfold seqLt16 sub16 at hlt
  unfold wrap16sub sub16
  split
  · next h => exfalso; omega
  · next h => omega

lemma classify_oos_not_inserted (cfg : StreamConfig) (st : StreamState)
    (p : RtpPacketRecord) (h : classify st p = Decision.OutOfSequence) :
    (processPacket cfg st p).timeline = st.timeline := by
  unfold processPacket
  rw [h]

/-- Claim C4: a packet whose sequence number is wraparound-aware (RFC 1982,
modulo `2^16`) less than every sequence number previously accepted on the
stream is classified `OutOfSequence`, never `Accept`, and processing it
leaves the output timeline unchanged (it is not inserted). -/
theorem rtp_c4 (cfg : StreamConfig) (t : Rat) (pkts : List RtpPacketRecord)
    (p : RtpPacketRecord)
    (hne : (pkts.foldl (processPacket cfg) (initState t)).admittedSeqs ≠ [])
    (hall : ∀ s ∈ (pkts.foldl (processPacket cfg) (initState t)).admittedSeqs,
      seqLt16 p.seq s) :
    classify (pkts.foldl (processPacket cfg) (initState t)) p = Decision.OutOfSequence ∧
    (processPacket cfg (pkts.foldl (processPacket cfg) (initState t)) p).timeline
      = (pkts.foldl (processPacket cfg) (initState t)).timeline := by
  have hinv := seqInv_foldl cfg pkts (initState t) (seqInv_initState t)
  have hlast := List.getLast?_eq_getLast _ hne
  obtain ⟨hhf, hbound, hexp⟩ := hinv _ hlast
  have hmem := List.getLast_mem hne
  have hlt := hall _ hmem
  have hwrap : wrap16sub p.seq
      ((pkts.foldl (processPacket cfg) (initState t)).expectedSeq) < 0 := by
    rw [hexp]
    exact oos_of_lt_last p.seq _ hbound hlt
  have hclass : classify (pkts.foldl (processPacket cfg) (initState t)) p
      = Decision.OutOfSequence := by
    generalize (pkts.foldl (processPacket cfg) (initState t)) = st at hhf hwrap
    unfold classify
    rw [hhf]
    simp [hwrap]
  exact ⟨hclass, classify_oos_not_inserted cfg _ p hclass⟩

lemma processPacket_eq_accept (cfg : StreamConfig) (st : StreamState)
    (p : RtpPacketRecord) (h : classify st p = Decision.Accept) :
    processPacket cfg st p = admitPacket cfg st p := by
  unfold processPacket
  rw [h]

lemma processPacket_eq_oos (cfg : StreamConfig) (st : StreamState)
    (p : RtpPacketRecord) (h : classify st p = Decision.OutOfSequence) :
    processPacket cfg st p
      = { st with oosCount := st.oosCount + 1,
                  oosTimes := st.oosTimes ++ [p.arrivalTime] } := by
  unfold processPacket
  rw [h]

lemma processPacket_eq_wrongTs (cfg : StreamConfig) (st : StreamState)
    (p : RtpPacketRecord) (h : classify st p = Decision.WrongTimestamp) :
    processPacket cfg st p
      = { st with wrongTsCount := st.wrongTsCount + 1,
                  wrongTsTimes := st.wrongTsTimes ++ [p.arrivalTime] } := by
  unfold processPacket
  rw [h]

lemma processPacket_eq_jitterDrop (cfg : StreamConfig) (st : StreamState)
    (p : RtpPacketRecord) (h : classify st p = Decision.JitterDrop) :
    processPacket cfg st p
      = { st with jitterDropCount := st.jitterDropCount + 1,
                  jitterDropTimes := st.jitterDropTimes ++ [p.arrivalTime] } := by
  unfold processPacket
  rw [h]

lemma classify_congr (st1 st2 : StreamState) (p : RtpPacketRecord)
    (h1 : st1.haveFirst = st2.haveFirst) (h2 : st1.expectedSeq = st2.expectedSeq)
    (h3 : st1.expectedTs = st2.expectedTs) (h4 : st1.sampleRate = st2.sampleRate) :
    classify st1 p = classify st2 p := by
  unfold classify
  rw [h1, h2, h3, h4]

lemma commitPacket_sampleRate (cfg : StreamConfig) (st : StreamState)
    (p : RtpPacketRecord) :
    (commitPacket cfg st p).sampleRate
      = ((payloadDecode p.payloadType p.payload).map Prod.snd).getD st.sampleRate := by
  unfold commitPacket commitDecoded
  have hb : (if cfg.mode = TimingMode.Uninterrupted then st
      else fillSilence st p).sampleRate = st.sampleRate := by
    split
    · rfl
    · exact fillSilence_proj (fun s => s.sampleRate) st p (fun _ _ => rfl) (fun _ _ _ => rfl)
  split
  · next vs rate heq => rw [heq]; rfl
  · next heq =>
      rw [heq]
      simpa [emitSamples_sampleRate] using hb

lemma admitPacket_jb0 (st : StreamState) (p : RtpPacketRecord) :
    admitPacket ⟨TimingMode.JitterBuffer, 0⟩ st p
      = commitPacket ⟨TimingMode.JitterBuffer, 0⟩ (admitRecord st p) p := by
  unfold admitPacket
  rfl

lemma admitPacket_uninterrupted (d : Nat) (st : StreamState) (p : RtpPacketRecord) :
    admitPacket ⟨TimingMode.Uninterrupted, d⟩ st p
      = commitPacket ⟨TimingMode.Uninterrupted, d⟩ (admitRecord st p) p := by
  unfold admitPacket
  rfl

lemma jb0_agree (pkts : List RtpPacketRecord) :
    ∀ st1 st2 : StreamState,
    st1.haveFirst = st2.haveFirst → st1.expectedSeq = st2.expectedSeq →
    st1.expectedTs = st2.expectedTs → st1.sampleRate = st2.sampleRate →
    st1.committed = st2.committed →
    st1.jitterBuffer = [] → st2.jitterBuffer = [] →
    (pkts.foldl (processPacket ⟨TimingMode.JitterBuffer, 0⟩) st1).committed
        = (pkts.foldl (processPacket ⟨TimingMode.Uninterrupted, 0⟩) st2).committed ∧
    (pkts.foldl (processPacket ⟨TimingMode.JitterBuffer, 0⟩) st1).jitterBuffer = [] ∧
    (pkts.foldl (processPacket ⟨TimingMode.Uninterrupted, 0⟩) st2).jitterBuffer = [] := by
  induction pkts with
  | nil =>
      intro st1 st2 h1 h2 h3 h4 h5 h6 h7
      exact ⟨h5, h6, h7⟩
  | cons p ps ih =>
      intro st1 st2 h1 h2 h3 h4 h5 h6 h7
      have hc := classify_congr st1 st2 p h1 h2 h3 h4
      have hstep : (p :: ps).foldl (processPacket ⟨TimingMode.JitterBuffer, 0⟩) st1
          = ps.foldl (processPacket ⟨TimingMode.JitterBuffer, 0⟩)
              (processPacket ⟨TimingMode.JitterBuffer, 0⟩ st1 p) := rfl
      have hstep2 : (p :: ps).foldl (processPacket ⟨TimingMode.Uninterrupted, 0⟩) st2
          = ps.foldl (processPacket ⟨TimingMode.Uninterrupted, 0⟩)
              (processPacket ⟨TimingMode.Uninterrupted, 0⟩ st2 p) := rfl
      rw [hstep, hstep2]
      cases hd : classify st2 p with
      | Accept =>
          rw [processPacket_eq_accept _ _ _ (hc.trans hd),
              processPacket_eq_accept _ _ _ hd, admitPacket_jb0,
              admitPacket_uninterrupted]
          apply ih
          · rw [commitPacket_haveFirst, commitPacket_haveFirst]; rfl
          · rw [commitPacket_expectedSeq, commitPacket_expectedSeq]; rfl
          · rw [commitPacket_expectedTs, commitPacket_expectedTs]; rfl
          · rw [commitPacket_sampleRate, commitPacket_sampleRate]
            show ((payloadDecode p.payloadType p.payload).map Prod.snd).getD st1.sampleRate
              = ((payloadDecode p.payloadType p.payload).map Prod.snd).getD st2.sampleRate
            rw [h4]
          · rw [commitPacket_committed, commitPacket_committed]
            show st1.committed ++ [p] = st2.committed ++ [p]
            rw [h5]
          · rw [commitPacket_jitterBuffer]
            exact h6
          · rw [commitPacket_jitterBuffer]
            exact h7
      | OutOfSequence =>
          rw [processPacket_eq_oos _ _ _ (hc.trans hd), processPacket_eq_oos _ _ _ hd]
          exact ih _ _ h1 h2 h3 h4 h5 h6 h7
      | WrongTimestamp =>
          rw [processPacket_eq_wrongTs _ _ _ (hc.trans hd), processPacket_eq_wrongTs _ _ _ hd]
          exact ih _ _ h1 h2 h3 h4 h5 h6 h7
      | JitterDrop =>
          rw [processPacket_eq_jitterDrop _ _ _ (hc.trans hd), processPacket_eq_jitterDrop _ _ _ hd]
          exact ih _ _ h1 h2 h3 h4 h5 h6 h7

lemma flushBuffer_committed_of_empty (cfg : StreamConfig) (st : StreamState)
    (h : st.jitterBuffer = []) : (flushBuffer cfg st).committed = st.committed := by
  unfold flushBuffer
  rw [h]
  rfl

lemma orderForDecode_jb (d : Nat) (pkts : List RtpPacketRecord) :
    orderForDecode ⟨TimingMode.JitterBuffer, d⟩ pkts = pkts := by
  cases pkts with
  | nil => rfl
  | cons a l => rfl

/-- Claim C8: a decode pass in `JitterBuffer` mode with jitter-buffer depth 0
commits exactly the same packets in the same order (immediate
accept-or-drop, no reordering tolerance) as a pass in `Uninterrupted` mode
on the same packet set, even though the silence-insertion behaviour of the
two modes differs. -/
theorem rtp_c8 (t : Rat) (pkts : List RtpPacketRecord) :
    (decodeRun ⟨TimingMode.JitterBuffer, 0⟩ t pkts).committed
      = (decodeRun ⟨TimingMode.Uninterrupted, 0⟩ t pkts).committed := by
  unfold decodeRun
  have hord1 : orderForDecode ⟨TimingMode.JitterBuffer, 0⟩ pkts = pkts := orderForDecode_jb 0 pkts
  have hord2 : orderForDecode ⟨TimingMode.Uninterrupted, 0⟩ pkts = pkts := by
    cases pkts with
    | nil => rfl
    | cons a l => rfl
  rw [hord1, hord2]
  obtain ⟨hcom, hb1, hb2⟩ := jb0_agree pkts (initState t) (initState t) rfl rfl rfl rfl rfl rfl rfl
  rw [flushBuffer_committed_of_empty _ _ hb1, flushBuffer_committed_of_empty _ _ hb2]
  exact hcom

lemma packetPlotTime_mono (cs : Rat) (rel : Bool) (a b : RtpPacketRecord)
    (h : a.arrivalTime < b.arrivalTime) :
    packetPlotTime cs rel a < packetPlotTime cs rel b := by
  unfold packetPlotTime
  split
  · exact h
  · linarith

lemma nearest_fold_head (key : RtpPacketRecord → Rat) (ts : Rat) :
    ∀ (l : List RtpPacketRecord) (b : RtpPacketRecord),
      (∀ q ∈ l, ¬ ratDist (key q) ts < ratDist (key b) ts) →
      l.foldl (fun best p => if ratDist (key p) ts < ratDist (key best) ts
        then p else best) b = b := by
  intro l
  induction l with
  | nil => intro b _; rfl
  | cons q l ih =>
      intro b h
      have h1 : (fun best p => if ratDist (key p) ts < ratDist (key best) ts
          then p else best) b q = b := if_neg (h q (List.mem_cons_self q l))
      have h2 : (q :: l).foldl _ b
          = l.foldl (fun best p => if ratDist (key p) ts < ratDist (key best) ts
              then p else best) ((fun best p => if ratDist (key p) ts < ratDist (key best) ts
              then p else best) b q) := rfl
      rw [h2, h1]
      exact ih b (fun r hr => h r (List.mem_cons_of_mem q hr))

lemma nearest_fold_last (key : RtpPacketRecord → Rat) (ts : Rat) :
    ∀ (l : List RtpPacketRecord) (b : RtpPacketRecord),
      (b :: l).Pairwise (fun a c => key a < key c) →
      (∀ q ∈ b :: l, key q < ts) →
      l.foldl (fun best p => if ratDist (key p) ts < ratDist (key best) ts
        then p else best) b = l.getLastD b := by
  intro l
  induction l with
  | nil => intro b _ _; rfl
  | cons q l ih =>
      intro b hpw hlt
      have hbq : key b < key q :=
        (List.pairwise_cons.mp hpw).1 q (List.mem_cons_self q l)
      have hqts : key q < ts := hlt q (List.mem_cons_of_mem b (List.mem_cons_self q l))
      have hbts : key b < ts := hlt b (List.mem_cons_self b _)
      have hstep : (fun best p => if ratDist (key p) ts < ratDist (key best) ts
          then p else best) b q = q := by
        have hd : ratDist (key q) ts < ratDist (key b) ts := by
          unfold ratDist
          rw [if_pos (le_of_lt hqts), if_pos (le_of_lt hbts)]
          linarith
        exact if_pos hd
      have h2 : (q :: l).foldl _ b
          = l.foldl (fun best p => if ratDist (key p) ts < ratDist (key best) ts
              then p else best) ((fun best p => if ratDist (key p) ts < ratDist (key best) ts
              then p else best) b q) := rfl
      rw [h2, hstep, List.getLastD_cons]
      exact ih q (List.pairwise_cons.mp hpw).2
        (fun r hr => hlt r (List.mem_cons_of_mem b hr))

lemma key_le_last (key : RtpPacketRecord → Rat) :
    ∀ (l : List RtpPacketRecord) (b : RtpPacketRecord),
      (b :: l).Pairwise (fun a c => key a < key c) →
      ∀ q ∈ b :: l, key q ≤ key (l.getLastD b) := by
  intro l
  induction l with
  | nil =>
      intro b _ q hq
      rw [List.mem_singleton] at hq
      subst hq
      exact le_refl _
  | cons a l ih =>
      intro b hpw q hq
      have hlast := ih a (List.pairwise_cons.mp hpw).2
      rw [List.getLastD_cons]
      rcases List.mem_cons.mp hq with hq | hq
      · subst hq
        have hba : key q < key a :=
          (List.pairwise_cons.mp hpw).1 a (List.mem_cons_self a l)
        exact le_of_lt (lt_of_lt_of_le hba (hlast a (List.mem_cons_self a l)))
      · exact hlast q hq

lemma nearest_fold_min (key : RtpPacketRecord → Rat) (ts : Rat) :
    ∀ (l : List RtpPacketRecord) (b : RtpPacketRecord),
      (l.foldl (fun best p => if ratDist (key p) ts < ratDist (key best) ts
          then p else best) b = b ∨
        l.foldl (fun best p => if ratDist (key p) ts < ratDist (key best) ts
          then p else best) b ∈ l) ∧
      ratDist (key (l.foldl (fun best p => if ratDist (key p) ts < ratDist (key best) ts
          then p else best) b)) ts ≤ ratDist (key b) ts ∧
      ∀ q ∈ l, ratDist (key (l.foldl (fun best p =>
          if ratDist (key p) ts < ratDist (key best) ts then p else best) b)) ts
        ≤ ratDist (key q) ts := by
  intro l
  induction l with
  | nil =>
      intro b
      refine ⟨Or.inl rfl, le_refl _, ?_⟩
      intro q hq
      exact absurd hq (List.not_mem_nil q)
  | cons p l ih =>
      intro b
      have h2 : (p :: l).foldl (fun best r => if ratDist (key r) ts < ratDist (key best) ts
          then r else best) b
          = l.foldl (fun best r => if ratDist (key r) ts < ratDist (key best) ts
              then r else best) ((fun best r => if ratDist (key r) ts < ratDist (key best) ts
              then r else best) b p) := rfl
      by_cases hif : ratDist (key p) ts < ratDist (key b) ts
      · have hstep : (fun best r => if ratDist (key r) ts < ratDist (key best) ts
            then r else best) b p = p := if_pos hif
        obtain ⟨hmem, hle, hall⟩ := ih p
        rw [h2, hstep]
        refine ⟨?_, ?_, ?_⟩
        · rcases hmem with hmem | hmem
          · exact Or.inr (by rw [hmem]; exact List.mem_cons_self p l)
          · exact Or.inr (List.mem_cons_of_mem p hmem)
        · exact le_of_lt (lt_of_le_of_lt hle hif)
        · intro q hq
          rcases List.mem_cons.mp hq with hq | hq
          · subst hq; exact hle
          · exact hall q hq
      · have hstep : (fun best r => if ratDist (key r) ts < ratDist (key best) ts
            then r else best) b p = b := if_neg hif
        obtain ⟨hmem, hle, hall⟩ := ih b
        rw [h2, hstep]
        refine ⟨?_, hle, ?_⟩
        · rcases hmem with hmem | hmem
          · exact Or.inl hmem
          · exact Or.inr (List.mem_cons_of_mem p hmem)
        · intro q hq
          rcases List.mem_cons.mp hq with hq | hq
          · subst hq
            exact le_trans hle (le_of_not_lt hif)
          · exact hall q hq

lemma nearestPacket_cons (cs : Rat) (ts : Rat) (rel : Bool)
    (p0 : RtpPacketRecord) (rest : List RtpPacketRecord) :
    nearestPacket cs (p0 :: rest) ts rel
      = (rest.foldl (fun best p => if ratDist (packetPlotTime cs rel p) ts
          < ratDist (packetPlotTime cs rel best) ts then p else best) p0).frameNum := rfl

/-- Claim C6: on a non-empty stored packet set (strictly sorted by arrival
time), `nearestPacket` called with a timestamp strictly before the first
packet's plotted time returns the first packet's capture frame number, with
a timestamp strictly after the last packet's plotted time returns the last
packet's frame number, and in general returns the frame number of a stored
packet whose plotted time is nearest to the query. -/
theorem rtp_c6 (cs : Rat) (rel : Bool) (ts : Rat) (p0 : RtpPacketRecord)
    (rest : List RtpPacketRecord)
    (hsort : (p0 :: rest).Pairwise (fun a b => a.arrivalTime < b.arrivalTime)) :
    (ts < packetPlotTime cs rel p0 →
      nearestPacket cs (p0 :: rest) ts rel = p0.frameNum) ∧
    (packetPlotTime cs rel (rest.getLastD p0) < ts →
      nearestPacket cs (p0 :: rest) ts rel = (rest.getLastD p0).frameNum) ∧
    (∃ q ∈ p0 :: rest, nearestPacket cs (p0 :: rest) ts rel = q.frameNum ∧
      ∀ r ∈ p0 :: rest,
        ratDist (packetPlotTime cs rel q) ts ≤ ratDist (packetPlotTime cs rel r) ts) := by
  have hkeys : (p0 :: rest).Pairwise
      (fun a b => packetPlotTime cs rel a < packetPlotTime cs rel b) :=
    hsort.imp (fun h => packetPlotTime_mono cs rel _ _ h)
  refine ⟨?_, ?_, ?_⟩
  · intro hts
    rw [nearestPacket_cons]
    have hstay := nearest_fold_head (packetPlotTime cs rel) ts rest p0 ?_
    · rw [hstay]
    · intro q hq
      have hlt : packetPlotTime cs rel p0 < packetPlotTime cs rel q :=
        (List.pairwise_cons.mp hkeys).1 q hq
      unfold ratDist
      rw [if_neg (by linarith), if_neg (by linarith)]
      intro hcon
      linarith
  · intro hts
    rw [nearestPacket_cons]
    have hall : ∀ q ∈ p0 :: rest, packetPlotTime cs rel q < ts := by
      intro q hq
      exact lt_of_le_of_lt (key_le_last (packetPlotTime cs rel) rest p0 hkeys q hq) hts
    rw [nearest_fold_last (packetPlotTime cs rel) ts rest p0 hkeys hall]
  · obtain ⟨hmem, hle, hall⟩ := nearest_fold_min (packetPlotTime cs rel) ts rest p0
    refine ⟨rest.foldl (fun best p => if ratDist (packetPlotTime cs rel p) ts
        < ratDist (packetPlotTime cs rel best) ts then p else best) p0,
        ?_, nearestPacket_cons cs ts rel p0 rest, ?_⟩
    · rcases hmem with hmem | hmem
      · rw [hmem]; exact List.mem_cons_self p0 rest
      · exact List.mem_cons_of_mem p0 hmem
    · intro r hr
      rcases List.mem_cons.mp hr with hr | hr
      · subst hr
        exact hle
      · exact hall r hr

lemma decodeRun_countsSum (cfg : StreamConfig) (t : Rat)
    (pkts : List RtpPacketRecord) :
    countsSum (decodeRun cfg t pkts) = pkts.length := by
  unfold decodeRun
  rw [flushBuffer_countsSum]
  have h1 := foldl_countsSum cfg (orderForDecode cfg pkts) (initState t)
  have h2 : (orderForDecode cfg pkts).length = pkts.length := by
    unfold orderForDecode
    split
    · exact List.length_insertionSort _ _
    · rfl
  have h0 : countsSum (initState t) = 0 := rfl
  have h0b : (initState t).jitterBuffer.length = 0 := rfl
  rw [h0, h0b] at h1
  omega

/-- Claim C2: running `decode()` twice with the packet set and configuration
unchanged yields an identical output timeline and identical counts for each
of the four event categories; the decode pass always recomputes from a
clean state derived from the stored packet set (the previous product `r` is
ignored), never incrementally from the previous result. -/
theorem rtp_c2 (s : RtpAudioStream) (r : StreamState) :
    (decodeOp (decodeOp s)).decoded.timeline = (decodeOp s).decoded.timeline ∧
    (decodeOp (decodeOp s)).decoded.oosCount = (decodeOp s).decoded.oosCount ∧
    (decodeOp (decodeOp s)).decoded.jitterDropCount = (decodeOp s).decoded.jitterDropCount ∧
    (decodeOp (decodeOp s)).decoded.wrongTsCount = (decodeOp s).decoded.wrongTsCount ∧
    (decodeOp (decodeOp s)).decoded.silenceCount = (decodeOp s).decoded.silenceCount ∧
    (decodeOp (decodeOp s)).decoded = (decodeOp s).decoded ∧
    (decodeOp { s with decoded := r }).decoded = (decodeOp s).decoded ∧
    (decodeOp s).decoded = decodeRun s.cfg s.startTime s.packets :=
  ⟨rfl, rfl, rfl, rfl, rfl, rfl, rfl, rfl⟩

/-- Claim C5: a decode pass never fails because of a malformed packet — with a
decoder-rejected packet in the set, the pass still classifies every packet
(counting the failure, substituting silence) and the only error a checked
decode can surface is the distinguishable output-buffer allocation failure;
streams are decoded independently, so one stream's pass leaves the others
unaffected. -/
theorem rtp_c5 (cap : Nat) (cfg : StreamConfig) (t : Rat)
    (pre post : List RtpPacketRecord) (p : RtpPacketRecord)
    (hbad : payloadDecode p.payloadType p.payload = none) :
    (∀ e, decodeChecked cap cfg t (pre ++ p :: post) = Except.error e →
      e = StreamDecodeError.allocFailure ∧
      cap < (decodeRun cfg t (pre ++ p :: post)).timeline.length) ∧
    countsSum (decodeRun cfg t (pre ++ p :: post)) = pre.length + 1 + post.length ∧
    (∀ rest, dialogDecodeAll cap ((cfg, t, pre ++ p :: post) :: rest)
      = decodeChecked cap cfg t (pre ++ p :: post) :: dialogDecodeAll cap rest) := by
  refine ⟨?_, ?_, ?_⟩
  · intro e he
    unfold decodeChecked at he
    split at he
    · exact absurd he (by simp)
    · next hlen =>
        injection he with he2
        exact ⟨he2.symm, by omega⟩
  · rw [decodeRun_countsSum]
    simp
    omega
  · intro rest
    rfl

/-- Claim C7: `reset(start_time)` keeps the accumulated packet set unchanged
while clearing the output timeline, emptying the jitter buffer and zeroing
every event counter, so that a subsequent `decode()` rebuilds the full
product from the same stored packets. -/
theorem rtp_c7 (s : RtpAudioStream) (t : Rat) :
    (resetOp s t).packets = s.packets ∧
    (resetOp s t).decoded.timeline = [] ∧
    (resetOp s t).decoded.jitterBuffer = [] ∧
    (resetOp s t).decoded.acceptCount = 0 ∧
    (resetOp s t).decoded.oosCount = 0 ∧
    (resetOp s t).decoded.wrongTsCount = 0 ∧
    (resetOp s t).decoded.jitterDropCount = 0 ∧
    (resetOp s t).decoded.silenceCount = 0 ∧
    (resetOp s t).decoded.decodeFailCount = 0 ∧
    (resetOp s t).decoded.outPos = 0 ∧
    (decodeOp (resetOp s t)).decoded = decodeRun s.cfg t s.packets :=
  ⟨rfl, rfl, rfl, rfl, rfl, rfl, rfl, rfl, rfl, rfl, rfl⟩

lemma dialogAddPacket_no_match (rows : List RtpAudioStream) (p : RtpPacketRecord)
    (h : ∀ r ∈ rows, isMatch r p = false) : dialogAddPacket rows p = rows := by
  induction rows with
  | nil => rfl
  | cons r rest ih =>
      unfold dialogAddPacket
      rw [if_neg (by rw [h r (List.mem_cons_self r rest)]; exact Bool.false_ne_true)]
      rw [ih (fun q hq => h q (List.mem_cons_of_mem r hq))]

lemma dialogAddPacket_first_match (p : RtpPacketRecord) :
    ∀ (pre : List RtpAudioStream) (r : RtpAudioStream) (post : List RtpAudioStream),
    (∀ q ∈ pre, isMatch q p = false) → isMatch r p = true →
    dialogAddPacket (pre ++ r :: post) p = pre ++ addRtpPacket r p :: post := by
  intro pre
  induction pre with
  | nil =>
      intro r post _ hr
      unfold dialogAddPacket
      simp [hr]
  | cons q pre ih =>
      intro r post hpre hr
      have hq : isMatch q p = false := hpre q (List.mem_cons_self q pre)
      have h2 : (q :: pre) ++ r :: post = q :: (pre ++ r :: post) := rfl
      rw [h2]
      unfold dialogAddPacket
      rw [if_neg (by rw [hq]; exact Bool.false_ne_true)]
      rw [ih r post (fun x hx => hpre x (List.mem_cons_of_mem q hx)) hr]
      rfl

lemma dialogAddPacket_length (rows : List RtpAudioStream) (p : RtpPacketRecord) :
    (dialogAddPacket rows p).length = rows.length := by
  induction rows with
  | nil => rfl
  | cons r rest ih =>
      unfold dialogAddPacket
      split
      · simp
      · simpa using ih

/-- Claim C9: `addPacket` delivers a tapped packet to at most one stream: rows
are scanned in order and the first row whose key matches receives the
packet, after which scanning stops (later rows are untouched even if they
match); a packet matching no row is silently discarded — the row list is
unchanged and no new stream is created. -/
theorem rtp_c9 (rows : List RtpAudioStream) (p : RtpPacketRecord) :
    ((∀ r ∈ rows, isMatch r p = false) → dialogAddPacket rows p = rows) ∧
    (∀ pre r post, rows = pre ++ r :: post → (∀ q ∈ pre, isMatch q p = false) →
      isMatch r p = true →
      dialogAddPacket rows p = pre ++ addRtpPacket r p :: post) ∧
    (dialogAddPacket rows p).length = rows.length := by
  refine ⟨fun h => dialogAddPacket_no_match rows p h, ?_, dialogAddPacket_length rows p⟩
  intro pre r post hrows hpre hr
  rw [hrows]
  exact dialogAddPacket_first_match p pre r post hpre hr

/-- Claim C10: a tapped packet that did not pass the display filter
(`passed_dfilter == 0`) or whose RTP version is not 2 is never delivered to
any stream: `tapPacket` returns `TAP_PACKET_DONT_REDRAW` with every row —
and hence every packet set, timeline and counter — unchanged. -/
theorem rtp_c10 (passedDfilter infoVersion : Nat)
    (rows : List RtpAudioStream) (p : RtpPacketRecord)
    (h : passedDfilter = 0 ∨ infoVersion ≠ 2) :
    tapPacket passedDfilter infoVersion rows p = (rows, TapPacketStatus.dontRedraw) := by
  unfold tapPacket
  rcases h with h | h
  · rw [if_pos h]
  · by_cases h0 : passedDfilter = 0
    · rw [if_pos h0]
    · rw [if_neg h0, if_pos h]

def wCfgU : StreamConfig := ⟨TimingMode.Uninterrupted, 0⟩

def wPacketA : RtpPacketRecord := ⟨1, 1000, 2, 2000, 7, 5, 0, 0, 0, [130, 140], 10⟩

def wPacketOos : RtpPacketRecord := ⟨1, 1000, 2, 2000, 7, 3, 0, 1, 0, [130], 11⟩

def wPacketBad : RtpPacketRecord := ⟨1, 1000, 2, 2000, 7, 1, 0, 0, 13, [1, 2], 12⟩

def wNear1 : RtpPacketRecord := ⟨1, 1, 2, 2, 7, 1, 0, 1, 0, [1], 10⟩

def wNear2 : RtpPacketRecord := ⟨1, 1, 2, 2, 7, 2, 0, 2, 0, [1], 20⟩

def wRowA : RtpAudioStream := ⟨9, 9, 9, 9, 9, [], ⟨TimingMode.JitterBuffer, 0⟩, 0, initState 0⟩

def wRowB : RtpAudioStream := ⟨1, 1000, 2, 2000, 7, [], ⟨TimingMode.JitterBuffer, 0⟩, 0, initState 0⟩

theorem rtp_c4_witness :
    classify ([wPacketA].foldl (processPacket wCfgU) (initState 0)) wPacketOos
        = Decision.OutOfSequence ∧
    (processPacket wCfgU ([wPacketA].foldl (processPacket wCfgU) (initState 0))
        wPacketOos).timeline
      = ([wPacketA].foldl (processPacket wCfgU) (initState 0)).timeline :=
  rtp_c4 wCfgU 0 [wPacketA] wPacketOos (by decide) (by decide)

theorem rtp_c5_witness : countsSum (decodeRun wCfgU 0 [wPacketBad]) = 1 :=
  (rtp_c5 100 wCfgU 0 [] [] wPacketBad (by decide)).2.1

theorem rtp_c6_witness :
    nearestPacket 0 [wNear1, wNear2] 0 true = 10 ∧
    nearestPacket 0 [wNear1, wNear2] 3 true = 20 :=
  ⟨(rtp_c6 0 true 0 wNear1 [wNear2] (by decide)).1 (by decide),
   (rtp_c6 0 true 3 wNear1 [wNear2] (by decide)).2.1 (by decide)⟩

theorem rtp_c9_witness :
    dialogAddPacket [wRowA, wRowB] wPacketA = [wRowA, addRtpPacket wRowB wPacketA] :=
  (rtp_c9 [wRowA, wRowB] wPacketA).2.1 [wRowA] wRowB [] rfl (by decide) (by decide)

theorem rtp_c10_witness :
    tapPacket 0 2 [wRowB] wPacketA = ([wRowB], TapPacketStatus.dontRedraw) :=
  rtp_c10 0 2 [wRowB] wPacketA (Or.inl rfl)
